import Mathlib

/-!
Verification of the in-memory session registry and minute-bucketed statistics
accumulator of the IPTV_STATS service, shallowly embedded from
`app/sessions.py` and `app/classifier.py`.

Python dictionaries are modelled as association lists with unique keys
maintained by the update operations; Python `set` of strings as `Finset String`;
Python integers as `Int` (or `Nat` for counters that are only ever incremented
from 0); Python floor division `//` as `Int.fdiv`.  A close event raising
`KeyError` is modelled by `Except.error` carrying the state as mutated so far.
Regular-expression matching in the classifier is modelled over ASCII
case-folding (every pattern in the source is ASCII).
-/

/-! ## Classifier (`app/classifier.py`) -/

/-- Whether `pat` occurs at the start of `hay` (character lists). -/
def isPre : List Char → List Char → Bool
  | [], _ => true
  | _ :: _, [] => false
  | a :: as, b :: bs => a = b && isPre as bs

/-- Whether `pat` occurs somewhere inside `hay` (character lists). -/
def listContains (hay pat : List Char) : Bool :=
  match hay with
  | [] => pat.isEmpty
  | _ :: t => isPre pat hay || listContains t pat

/-- Substring test on strings; callers pass already-lowercased text, modelling
`re.IGNORECASE` search for a literal pattern. -/
def lcContains (hay pat : String) : Bool :=
  listContains hay.toList pat.toList

/-- The characters Python's `\s` matches (ASCII portion). -/
def wsStrings : List String :=
  [" ", "\t", "\n", "\r", "\x0b", "\x0c"]

/-- ASCII lowercasing (Python `str.lower()` / `re.IGNORECASE` on the ASCII
patterns of the source), written by structural recursion so that it reduces
inside the kernel. -/
def strLower (s : String) : String := String.mk (s.toList.map Char.toLower)

/-- The ten decimal digit strings (`\d` alternatives). -/
def digitStrings : List String := ["0", "1", "2", "3", "4", "5", "6", "7", "8", "9"]

/-- The suffix of `hay` right after the first occurrence of `pat`, if any. -/
def afterFirst (hay pat : List Char) : Option (List Char) :=
  match hay with
  | [] => none
  | _ :: t => if isPre pat hay then some (hay.drop pat.length) else afterFirst t pat

/-- Newline character, for splitting: Python's `.` in a regex does not match
newlines. -/
def nlChar : Char := Char.ofNat 10

/-- One alternative of a source regex, restricted to the forms the source
actually uses: a literal, `a\s?b`, `a\d`, and `a.*b`. -/
inductive ReAtom where
  | lit : String → ReAtom
  | optWS : String → String → ReAtom
  | litDigit : String → ReAtom
  | dotStar : String → String → ReAtom
deriving DecidableEq

/-- Whether one regex alternative matches (search semantics) inside the
already-lowercased string `hay`. -/
def atomMatch (hay : String) : ReAtom → Bool
  | ReAtom.lit p => lcContains hay p
  | ReAtom.optWS a b =>
      lcContains hay (a ++ b) || wsStrings.any (fun w => lcContains hay (a ++ w ++ b))
  | ReAtom.litDigit a =>
      digitStrings.any (fun d => lcContains hay (a ++ d))
  | ReAtom.dotStar a b =>
      (hay.toList.splitOnP (fun c => c = nlChar)).any (fun seg =>
        match afterFirst seg a.toList with
        | some rest => listContains rest b.toList
        | none => false)

/-- `USER_AGENT_PATTERNS` of `app/classifier.py`: category paired with the
alternatives of its compiled pattern (all stored lowercase; matching is
case-insensitive).  Order matters: first match wins. -/
def USER_AGENT_PATTERNS : List (String × List ReAtom) :=
  [("streaming_server", [ReAtom.lit "streamer"]),
   ("streaming_server", [ReAtom.lit "ffmpeg"]),
   ("android", [ReAtom.lit "android"]),
   ("android", [ReAtom.lit "okhttp"]),
   ("ios", [ReAtom.lit "iphone", ReAtom.lit "ipad", ReAtom.lit "ios", ReAtom.lit "darwin"]),
   ("tv", [ReAtom.lit "smarttv", ReAtom.lit "smart-tv", ReAtom.lit "googletv",
           ReAtom.optWS "apple" "tv", ReAtom.lit "roku", ReAtom.optWS "fire" "tv",
           ReAtom.lit "webos", ReAtom.lit "tizen"]),
   ("tv", [ReAtom.lit "lg browser", ReAtom.lit "bravia", ReAtom.lit "playstation",
           ReAtom.lit "xbox"]),
   ("stb", [ReAtom.lit "stb", ReAtom.lit "set-top", ReAtom.litDigit "mag",
            ReAtom.lit "formuler", ReAtom.lit "tvip", ReAtom.lit "buzztv"]),
   ("stb", [ReAtom.lit "lavf"]),
   ("desktop", [ReAtom.lit "windows", ReAtom.lit "macintosh",
                ReAtom.dotStar "linux" "firefox", ReAtom.dotStar "linux" "chrome"]),
   ("desktop", [ReAtom.lit "chrome", ReAtom.lit "firefox", ReAtom.lit "safari",
                ReAtom.lit "edge"])]

/-- Whether a compiled pattern (alternation of atoms) matches `hay`. -/
def patternMatch (hay : String) (atoms : List ReAtom) : Bool :=
  atoms.any (atomMatch hay)

/-- The category of the first matching pattern, scanning in order. -/
def findCategory : List (String × List ReAtom) → String → Option String
  | [], _ => none
  | (cat, atoms) :: rest, hay =>
      if patternMatch hay atoms then some cat else findCategory rest hay

/-- `classify_user_agent` of `app/classifier.py`. -/
def classify_user_agent (ua : String) : String :=
  if ua = "" then "other"
  else
    match findCategory USER_AGENT_PATTERNS (strLower ua) with
    | some cat => cat
    | none => "other"

/-- Whether any pattern of `USER_AGENT_PATTERNS` matches the input. -/
def uaMatchesAny (ua : String) : Bool :=
  USER_AGENT_PATTERNS.any (fun p => patternMatch (strLower ua) p.2)

/-- Association-list lookup, first match wins (Python `dict` access). -/
def alookup {α : Type} : List (String × α) → String → Option α
  | [], _ => none
  | (k, v) :: rest, i => if k = i then some v else alookup rest i

/-- `classify_user_agent_cached` of `app/classifier.py`: `KNOWN_USER_AGENTS` is
passed and returned explicitly.  Returns the category and the updated cache. -/
def classify_user_agent_cached (cache : List (String × String)) (ua : String) :
    String × List (String × String) :=
  match alookup cache ua with
  | some cat => (cat, cache)
  | none =>
      let cat := classify_user_agent ua
      if cache.length < 10000 then (cat, (ua, cat) :: cache) else (cat, cache)

/-- A cache state every entry of which records what `classify_user_agent`
returns for its key: this is an invariant of every reachable cache, since
entries are only ever created from `classify_user_agent`'s result. -/
def cacheCoherent (cache : List (String × String)) : Prop :=
  ∀ p ∈ cache, p.2 = classify_user_agent p.1

instance (cache : List (String × String)) : Decidable (cacheCoherent cache) :=
  inferInstanceAs (Decidable (∀ p ∈ cache, p.2 = classify_user_agent p.1))

/-! ## Sessions data model (`app/sessions.py`) -/

/-- `Session` dataclass of `app/sessions.py` (`updated_at`, a wall-clock
persistence timestamp never read by the accumulator, is omitted). -/
structure Session where
  id : String
  server : String
  media : String
  user_id : String
  country : String
  proto : String
  user_agent_class : String
  bytes : Int
  opened_at : Int
deriving DecidableEq

/-- `DimensionStats` accumulator of `app/sessions.py`; all fields start from
the constructor's zeros. -/
structure DimensionStats where
  started : Nat := 0
  closed : Nat := 0
  bytes : Int := 0
  watch_time_ms : Int := 0
  unique_users : Finset String := ∅
  peak_concurrent : Nat := 0
deriving DecidableEq

/-- `DimensionStats.add_started`. -/
def DimensionStats.add_started (d : DimensionStats) (user_id : String) : DimensionStats :=
  { d with started := d.started + 1, unique_users := insert user_id d.unique_users }

/-- `DimensionStats.add_closed`. -/
def DimensionStats.add_closed (d : DimensionStats) (user_id : String)
    (bytes_delta watch_time_ms : Int) : DimensionStats :=
  { d with closed := d.closed + 1,
           bytes := d.bytes + bytes_delta,
           watch_time_ms := d.watch_time_ms + watch_time_ms,
           unique_users := insert user_id d.unique_users }

/-- One per-dimension map `Dict[str, DimensionStats]`. -/
abbrev DimMap : Type := List (String × DimensionStats)

/-- `_get_dimension_stats` followed by a mutation of the returned accumulator:
lazily creates the key with a fresh `DimensionStats()` and applies `f` to it. -/
def updateDim : DimMap → String → (DimensionStats → DimensionStats) → DimMap
  | [], k, f => [(k, f {})]
  | (k3, v) :: rest, k, f =>
      if k3 = k then (k3, f v) :: rest else (k3, v) :: updateDim rest k f

/-- The accumulator stored at `k`, or a fresh zero accumulator
(`dimension_dict.get(key, DimensionStats())`). -/
def getDim (d : DimMap) (k : String) : DimensionStats :=
  (alookup d k).getD {}

/-- Dictionary assignment `m[k] = s` for the session registry. -/
def regInsert : List (String × Session) → String → Session → List (String × Session)
  | [], k, s => [(k, s)]
  | (k3, v) :: rest, k, s =>
      if k3 = k then (k3, s) :: rest else (k3, v) :: regInsert rest k s

/-- `m.pop(k, None)`: the removed value (if any) and the remaining registry. -/
def regPop : List (String × Session) → String → Option Session × List (String × Session)
  | [], _ => (none, [])
  | (k3, v) :: rest, k =>
      if k3 = k then (some v, rest)
      else
        let r := regPop rest k
        (r.1, (k3, v) :: r.2)

/-- The whole mutable state of `ActiveSessionsManager`: the session registry
plus the current minute window. -/
structure MState where
  sessions : List (String × Session)
  minute_started : Nat
  minute_closed : Nat
  minute_bytes : Int
  minute_watch_time_ms : Int
  minute_unique_users : Finset String
  minute_peak_concurrent : Nat
  by_server : DimMap
  by_channel : DimMap
  by_country : DimMap
  by_protocol : DimMap
  by_user_agent : DimMap
deriving DecidableEq

/-- The state `ActiveSessionsManager.__init__` builds. -/
def initState : MState :=
  { sessions := [], minute_started := 0, minute_closed := 0, minute_bytes := 0,
    minute_watch_time_ms := 0, minute_unique_users := ∅, minute_peak_concurrent := 0,
    by_server := [], by_channel := [], by_country := [], by_protocol := [],
    by_user_agent := [] }

/-- Python `x or d` for an optional string field: `None` and the empty string
both fall back to the default. -/
def orDefault (v : Option String) (d : String) : String :=
  match v with
  | some s => if s = "" then d else s
  | none => d

/-- A `play_started` event's fields as `session_started` reads them: `id`,
`server`, `media` and `opened_at` are accessed with `[]` (the transport
guarantees them), the rest with `.get` and a default. -/
structure StartEvent where
  id : String
  server : String
  media : String
  user_id : Option String := none
  country : Option String := none
  proto : Option String := none
  user_agent : String := ""
  bytes : Int := 0
  opened_at : Int
deriving DecidableEq

/-- A `play_closed` event's fields as `session_closed` reads them.  `server`
and `media` are `Option` because the code accesses them with `[]` only on the
unmatched path, where a missing key raises `KeyError`.  `closed_at` and
`bytes` use `.get(_, 0)`, so an absent field is indistinguishable from 0.
The global classifier cache is not threaded through the manager: on every
reachable (coherent) cache the memoised classifier agrees with
`classify_user_agent` (proved below for the classifier claim), so the
embedding calls `classify_user_agent` directly. -/
structure CloseEvent where
  id : String
  server : Option String := none
  media : Option String := none
  user_id : Option String := none
  country : Option String := none
  proto : Option String := none
  user_agent : String := ""
  bytes : Int := 0
  closed_at : Int := 0
deriving DecidableEq

/-- `ActiveSessionsManager.session_started`. -/
def sessionStarted (st : MState) (e : StartEvent) : MState :=
  let uac := classify_user_agent e.user_agent
  let s : Session :=
    { id := e.id, server := e.server, media := e.media,
      user_id := orDefault e.user_id e.id,
      country := orDefault e.country "XX",
      proto := orDefault e.proto "unknown",
      user_agent_class := uac, bytes := e.bytes, opened_at := e.opened_at }
  let sessions := regInsert st.sessions s.id s
  let cc := sessions.length
  { st with
    sessions := sessions,
    minute_started := st.minute_started + 1,
    minute_unique_users := insert s.user_id st.minute_unique_users,
    minute_peak_concurrent :=
      if cc > st.minute_peak_concurrent then cc else st.minute_peak_concurrent,
    by_server := updateDim st.by_server s.server (fun v => v.add_started s.user_id),
    by_channel := updateDim st.by_channel s.media (fun v => v.add_started s.user_id),
    by_country := updateDim st.by_country s.country (fun v => v.add_started s.user_id),
    by_protocol := updateDim st.by_protocol s.proto (fun v => v.add_started s.user_id),
    by_user_agent := updateDim st.by_user_agent uac (fun v => v.add_started s.user_id) }

/-- `ActiveSessionsManager.session_closed`.  `Except.error st` models the
`KeyError` raised on the unmatched path when the event dict lacks `server`
(or `media`), with `st` the state as already mutated at the raise point. -/
def sessionClosed (st : MState) (e : CloseEvent) : Except MState MState :=
  match regPop st.sessions e.id with
  | (some s, sessions) =>
      let watch_time_ms : Int := if e.closed_at ≠ 0 then e.closed_at - s.opened_at else 0
      let bytes_delta := e.bytes - s.bytes
      Except.ok
        { st with
          sessions := sessions,
          minute_closed := st.minute_closed + 1,
          minute_bytes := st.minute_bytes + bytes_delta,
          minute_watch_time_ms := st.minute_watch_time_ms + watch_time_ms,
          minute_unique_users := insert s.user_id st.minute_unique_users,
          by_server := updateDim st.by_server s.server
            (fun v => v.add_closed s.user_id bytes_delta watch_time_ms),
          by_channel := updateDim st.by_channel s.media
            (fun v => v.add_closed s.user_id bytes_delta watch_time_ms),
          by_country := updateDim st.by_country s.country
            (fun v => v.add_closed s.user_id bytes_delta watch_time_ms),
          by_protocol := updateDim st.by_protocol s.proto
            (fun v => v.add_closed s.user_id bytes_delta watch_time_ms),
          by_user_agent := updateDim st.by_user_agent s.user_agent_class
            (fun v => v.add_closed s.user_id bytes_delta watch_time_ms) }
  | (none, _) =>
      let uac := classify_user_agent e.user_agent
      let user_id := orDefault e.user_id e.id
      let country := orDefault e.country "XX"
      let proto := orDefault e.proto "unknown"
      let st1 :=
        { st with
          minute_closed := st.minute_closed + 1,
          minute_bytes := st.minute_bytes + e.bytes,
          minute_unique_users := insert user_id st.minute_unique_users }
      match e.server with
      | none => Except.error st1
      | some srv =>
          let st2 :=
            { st1 with
              by_server := updateDim st1.by_server srv
                (fun v => v.add_closed user_id e.bytes 0) }
          match e.media with
          | none => Except.error st2
          | some med =>
              Except.ok
                { st2 with
                  by_channel := updateDim st2.by_channel med
                    (fun v => v.add_closed user_id e.bytes 0),
                  by_country := updateDim st2.by_country country
                    (fun v => v.add_closed user_id e.bytes 0),
                  by_protocol := updateDim st2.by_protocol proto
                    (fun v => v.add_closed user_id e.bytes 0),
                  by_user_agent := updateDim st2.by_user_agent uac
                    (fun v => v.add_closed user_id e.bytes 0) }

/-! ## Snapshot-and-reset (`get_and_reset_minute_stats`) -/

/-- One result row of a dimension breakdown (a value of the dicts built by
`_finalize_dimension_stats`). -/
structure StatsRow where
  sessions_started : Nat
  sessions_closed : Nat
  total_bytes : Int
  watch_time_seconds : Int
  unique_users : Nat
  peak_concurrent : Nat
deriving DecidableEq

/-- The `"global"` row of the flush result. -/
structure GlobalStats where
  sessions_started : Nat
  sessions_closed : Nat
  total_bytes : Int
  watch_time_seconds : Int
  unique_users : Nat
  peak_concurrent : Nat
  current_concurrent : Nat
deriving DecidableEq

/-- The full dict returned by `get_and_reset_minute_stats`. -/
structure MinuteStats where
  global : GlobalStats
  by_server : List (String × StatsRow)
  by_channel : List (String × StatsRow)
  by_country : List (String × StatsRow)
  by_protocol : List (String × StatsRow)
  by_user_agent : List (String × StatsRow)
deriving DecidableEq

/-- `concurrent[key] = concurrent.get(key, 0) + 1`. -/
def bumpCount : List (String × Nat) → String → List (String × Nat)
  | [], k => [(k, 1)]
  | (k3, n) :: rest, k =>
      if k3 = k then (k3, n + 1) :: rest else (k3, n) :: bumpCount rest k

/-- The per-dimension live concurrent counts: one pass over the registry
(the loop at the top of `get_and_reset_minute_stats`). -/
def concurrentCounts (sessions : List (String × Session)) (f : Session → String) :
    List (String × Nat) :=
  sessions.foldl (fun acc p => bumpCount acc (f p.2)) []

/-- Lookup with default 0 (`concurrent.get(key, 0)`). -/
def lookupNat (m : List (String × Nat)) (k : String) : Nat :=
  (alookup m k).getD 0

/-- Key list with duplicates removed (keeps the last occurrence); models the
set union `set(dimension_dict.keys()) | set(concurrent.keys())`, whose
iteration order Python leaves unspecified. -/
def dedupKeys : List String → List String
  | [] => []
  | k :: rest => if k ∈ dedupKeys rest then dedupKeys rest else k :: dedupKeys rest

/-- `_finalize_dimension_stats`: one row for every key in the union of the
window's accumulator map and the live-overlay map. -/
def finalizeDim (d : DimMap) (conc : List (String × Nat)) : List (String × StatsRow) :=
  (dedupKeys (d.map Prod.fst ++ conc.map Prod.fst)).map (fun k =>
    let stats := getDim d k
    (k, { sessions_started := stats.started,
          sessions_closed := stats.closed,
          total_bytes := stats.bytes,
          watch_time_seconds := Int.fdiv stats.watch_time_ms 1000,
          unique_users := stats.unique_users.card,
          peak_concurrent := max stats.peak_concurrent (lookupNat conc k) }))

/-- `ActiveSessionsManager.get_and_reset_minute_stats`: the returned stats and
the reset state. -/
def get_and_reset_minute_stats (st : MState) : MinuteStats × MState :=
  let stats : MinuteStats :=
    { global :=
        { sessions_started := st.minute_started,
          sessions_closed := st.minute_closed,
          total_bytes := st.minute_bytes,
          watch_time_seconds := Int.fdiv st.minute_watch_time_ms 1000,
          unique_users := st.minute_unique_users.card,
          peak_concurrent := st.minute_peak_concurrent,
          current_concurrent := st.sessions.length },
      by_server := finalizeDim st.by_server (concurrentCounts st.sessions (fun s => s.server)),
      by_channel := finalizeDim st.by_channel (concurrentCounts st.sessions (fun s => s.media)),
      by_country := finalizeDim st.by_country (concurrentCounts st.sessions (fun s => s.country)),
      by_protocol := finalizeDim st.by_protocol (concurrentCounts st.sessions (fun s => s.proto)),
      by_user_agent :=
        finalizeDim st.by_user_agent (concurrentCounts st.sessions (fun s => s.user_agent_class)) }
  (stats,
   { st with
     minute_started := 0, minute_closed := 0, minute_bytes := 0,
     minute_watch_time_ms := 0, minute_unique_users := ∅,
     minute_peak_concurrent := st.sessions.length,
     by_server := [], by_channel := [], by_country := [], by_protocol := [],
     by_user_agent := [] })

/-- The stats a flush returns (first component of `get_and_reset_minute_stats`). -/
def flushOut (st : MState) : MinuteStats :=
  (get_and_reset_minute_stats st).1

/-- The reset state a flush leaves behind (second component). -/
def flushReset (st : MState) : MState :=
  (get_and_reset_minute_stats st).2

/-- `ActiveSessionsManager.restore_sessions`. -/
def restore_sessions (st : MState) (sessions : List Session) : MState :=
  let m := sessions.foldl (fun m s => regInsert m s.id s) st.sessions
  { st with sessions := m, minute_peak_concurrent := m.length }

/-! ## Event sequences -/

/-- One webhook event as routed to the manager. -/
inductive Event where
  | start : StartEvent → Event
  | close : CloseEvent → Event
deriving DecidableEq

/-- Apply one event; a close may raise. -/
def applyEvent (st : MState) : Event → Except MState MState
  | Event.start e => Except.ok (sessionStarted st e)
  | Event.close e => sessionClosed st e

/-- Apply a sequence of events; `none` if some close raised `KeyError`. -/
def runEvents (st : MState) : List Event → Option MState
  | [] => some st
  | ev :: rest =>
      match applyEvent st ev with
      | Except.ok st2 => runEvents st2 rest
      | Except.error _ => none

/-- Fold a list of start events (used for pure start-only sequences). -/
def applyStarts (st : MState) (evs : List StartEvent) : MState :=
  evs.foldl sessionStarted st

/-- The state `session_closed` leaves behind, whether it returns or raises. -/
def closeState (r : Except MState MState) : MState :=
  match r with
  | Except.ok st => st
  | Except.error st => st

/-- Whether an `Except` result is a normal return. -/
def exceptOk (r : Except MState MState) : Bool :=
  match r with
  | Except.ok _ => true
  | Except.error _ => false

/-! ## Measure sums over a dimension (statement vocabulary) -/

/-- Sum of a measure over a dimension map's accumulators. -/
def dimSum {M : Type} [AddCommMonoid M] (g : DimensionStats → M) (d : DimMap) : M :=
  (List.map (fun p => g p.2) d).sum

/-- Sum of `started` over a dimension map. -/
def sumStarted (d : DimMap) : Nat := dimSum (fun v => v.started) d

/-- Sum of `closed` over a dimension map. -/
def sumClosed (d : DimMap) : Nat := dimSum (fun v => v.closed) d

/-- Sum of `bytes` over a dimension map. -/
def sumBytes (d : DimMap) : Int := dimSum (fun v => v.bytes) d

/-- Sum of `watch_time_ms` over a dimension map. -/
def sumWatchMs (d : DimMap) : Int := dimSum (fun v => v.watch_time_ms) d

/-- Sum of `sessions_started` over the rows of a flushed dimension. -/
def rowsStarted (rows : List (String × StatsRow)) : Nat :=
  (List.map (fun p => p.2.sessions_started) rows).sum

/-- Sum of `sessions_closed` over the rows of a flushed dimension. -/
def rowsClosed (rows : List (String × StatsRow)) : Nat :=
  (List.map (fun p => p.2.sessions_closed) rows).sum

/-- Sum of `total_bytes` over the rows of a flushed dimension. -/
def rowsBytes (rows : List (String × StatsRow)) : Int :=
  (List.map (fun p => p.2.total_bytes) rows).sum

/-- Sum of `watch_time_seconds` over the rows of a flushed dimension. -/
def rowsWatchSec (rows : List (String × StatsRow)) : Int :=
  (List.map (fun p => p.2.watch_time_seconds) rows).sum

/-- The dimension's keys are pairwise distinct (true of every reachable
state's maps; Python dict keys are unique by construction). -/
def dimNodup (d : DimMap) : Prop := (List.map Prod.fst d).Nodup

instance (d : DimMap) : Decidable (dimNodup d) :=
  inferInstanceAs (Decidable (List.map Prod.fst d).Nodup)

/-- The window's global scalars agree with one dimension map: distinct keys,
and each of the four additive measures sums to the global figure. -/
def recDim (a b : Nat) (c w : Int) (d : DimMap) : Prop :=
  dimNodup d ∧ a = sumStarted d ∧ b = sumClosed d ∧ c = sumBytes d ∧ w = sumWatchMs d

instance (a b : Nat) (c w : Int) (d : DimMap) : Decidable (recDim a b c w d) :=
  inferInstanceAs (Decidable (_ ∧ _ ∧ _ ∧ _ ∧ _))

/-- The reconciliation invariant of a window state: every one of the five
dimension maps accounts for the global started/closed/bytes/watch-time. -/
def reconciles (st : MState) : Prop :=
  recDim st.minute_started st.minute_closed st.minute_bytes st.minute_watch_time_ms st.by_server ∧
  recDim st.minute_started st.minute_closed st.minute_bytes st.minute_watch_time_ms st.by_channel ∧
  recDim st.minute_started st.minute_closed st.minute_bytes st.minute_watch_time_ms st.by_country ∧
  recDim st.minute_started st.minute_closed st.minute_bytes st.minute_watch_time_ms st.by_protocol ∧
  recDim st.minute_started st.minute_closed st.minute_bytes st.minute_watch_time_ms st.by_user_agent

instance (st : MState) : Decidable (reconciles st) :=
  inferInstanceAs (Decidable (_ ∧ _ ∧ _ ∧ _ ∧ _))

/-- The global row reconciles with one flushed dimension on the three measures
that survive truncation unscathed. -/
def rowsReconcile (g : GlobalStats) (rows : List (String × StatsRow)) : Prop :=
  rowsStarted rows = g.sessions_started ∧
  rowsClosed rows = g.sessions_closed ∧
  rowsBytes rows = g.total_bytes

instance (g : GlobalStats) (rows : List (String × StatsRow)) :
    Decidable (rowsReconcile g rows) :=
  inferInstanceAs (Decidable (_ ∧ _ ∧ _))

/-- All five listed measures of a row are zero (`peak_concurrent` exempt). -/
def rowAllZero (r : StatsRow) : Prop :=
  r.sessions_started = 0 ∧ r.sessions_closed = 0 ∧ r.total_bytes = 0 ∧
  r.watch_time_seconds = 0 ∧ r.unique_users = 0

instance (r : StatsRow) : Decidable (rowAllZero r) :=
  inferInstanceAs (Decidable (_ ∧ _ ∧ _ ∧ _ ∧ _))

/-- Every row of a flushed dimension has all-zero measures. -/
def rowsAllZero (rows : List (String × StatsRow)) : Prop :=
  ∀ p ∈ rows, rowAllZero p.2

instance (rows : List (String × StatsRow)) : Decidable (rowsAllZero rows) :=
  inferInstanceAs (Decidable (∀ p ∈ rows, rowAllZero p.2))

/-- The last session of the list carrying the given id, if any ("later entries
overwrite earlier ones"). -/
def lastById : List Session → String → Option Session
  | [], _ => none
  | s :: rest, i =>
      match lastById rest i with
      | some r => some r
      | none => if s.id = i then some s else none

/-! ## Concrete inputs for witnesses and counterexamples -/

/-- The worked example's start event (spec section 8). -/
def evC5Start : StartEvent :=
  { id := "s1", server := "a", media := "c1", user_id := some "u1",
    user_agent := "Android App", opened_at := 1000 }

/-- The worked example's close event. -/
def evC5Close : CloseEvent :=
  { id := "s1", user_id := some "u1", bytes := 2048, closed_at := 1500 }

/-- State after the worked example's start and close. -/
def c5State : MState :=
  closeState (sessionClosed (sessionStarted initState evC5Start) evC5Close)

/-- Start on channel `c1` (truncation counterexample). -/
def evA1 : StartEvent := { id := "s1", server := "a", media := "c1", opened_at := 1000 }

/-- Start on channel `c2` (truncation counterexample). -/
def evA2 : StartEvent := { id := "s2", server := "a", media := "c2", opened_at := 1000 }

/-- Close of `s1` after 500 ms. -/
def evA1c : CloseEvent := { id := "s1", closed_at := 1500 }

/-- Close of `s2` after 500 ms. -/
def evA2c : CloseEvent := { id := "s2", closed_at := 1500 }

/-- Two 500 ms sessions on distinct channels: each channel's watch time
truncates to 0 s while the global 1000 ms truncates to 1 s. -/
def c1CexEvents : List Event :=
  [Event.start evA1, Event.start evA2, Event.close evA1c, Event.close evA2c]

/-- State reached by `c1CexEvents`. -/
def c1CexState : MState := (runEvents initState c1CexEvents).getD initState

/-- Start used by the reconciliation witness run. -/
def evW1 : StartEvent :=
  { id := "w1", server := "sv", media := "ch", user_id := some "u9",
    user_agent := "FFmpeg", opened_at := 500 }

/-- Matched close of `w1`. -/
def evW1c : CloseEvent := { id := "w1", bytes := 100, closed_at := 2500 }

/-- Unmatched close carrying its own server and media. -/
def evW2c : CloseEvent :=
  { id := "nope", server := some "sv2", media := some "ch2", bytes := 7 }

/-- A run mixing a start, a matched close and an unmatched close. -/
def c1WitnessEvents : List Event :=
  [Event.start evW1, Event.close evW1c, Event.close evW2c]

/-- State reached by `c1WitnessEvents`. -/
def c1WitnessState : MState := (runEvents initState c1WitnessEvents).getD initState

/-- Start whose session opens at 2000 ms (clamp counterexample). -/
def evC3Start : StartEvent := { id := "s1", server := "a", media := "c", opened_at := 2000 }

/-- Close reported at 1500 ms, before the session opened. -/
def evC3Close : CloseEvent := { id := "s1", closed_at := 1500 }

/-- State holding the session of `evC3Start`. -/
def c3PreState : MState := sessionStarted initState evC3Start

/-- State after the out-of-order close: watch time went negative. -/
def c3State : MState := closeState (sessionClosed c3PreState evC3Close)

/-- The session record `evC3Start` inserts. -/
def c3Session : Session :=
  { id := "s1", server := "a", media := "c", user_id := "s1", country := "XX",
    proto := "unknown", user_agent_class := "other", bytes := 0, opened_at := 2000 }

/-- Unmatched close carrying server, media and bytes. -/
def evC4Close : CloseEvent :=
  { id := "ghost", server := some "sv", media := some "ch", user_id := some "u2",
    bytes := 512 }

/-- A start event with id `dup` (duplicate-start counterexample). -/
def evDup : StartEvent := { id := "dup", server := "x", media := "y", opened_at := 1 }

/-- Start with id `b1`. -/
def evB1 : StartEvent := { id := "b1", server := "x", media := "y", opened_at := 1 }

/-- Start with id `b2`. -/
def evB2 : StartEvent := { id := "b2", server := "x", media := "y", opened_at := 2 }

/-- Close of `b1`. -/
def evB1c : CloseEvent := { id := "b1" }

/-- State with one live session (reset-completeness witness input). -/
def c2WitState : MState := sessionStarted initState evB1

/-- Unmatched close lacking both `server` and `media` (the spec's Close event
shape carries neither field). -/
def evC10Close : CloseEvent := { id := "ghost2", user_id := some "u7", bytes := 99 }

/-- A coherent one-entry classifier cache. -/
def c8WitCache : List (String × String) := [("Android App", "android")]

/-! ## Basic lemmas on the map operations -/

theorem mem_dedupKeys (K : List String) : ∀ k, k ∈ dedupKeys K ↔ k ∈ K := by
  induction K with
  | nil => intro k; simp [dedupKeys]
  | cons k2 rest ih =>
      intro k
      by_cases h : k2 ∈ dedupKeys rest
      · rw [dedupKeys, if_pos h, ih k, List.mem_cons]
        constructor
        · exact Or.inr
        · rintro (rfl | hk)
          · exact (ih k).mp h
          · exact hk
      · rw [dedupKeys, if_neg h]
        simp [List.mem_cons, ih k]

theorem nodup_dedupKeys (K : List String) : (dedupKeys K).Nodup := by
  induction K with
  | nil => simp [dedupKeys]
  | cons k2 rest ih =>
      by_cases h : k2 ∈ dedupKeys rest
      · rw [dedupKeys, if_pos h]; exact ih
      · rw [dedupKeys, if_neg h]; exact List.nodup_cons.mpr ⟨h, ih⟩

theorem getDim_updateDim_self (d : DimMap) (k : String) (f : DimensionStats → DimensionStats) :
    getDim (updateDim d k f) k = f (getDim d k) := by
  induction d with
  | nil => simp [updateDim, getDim, alookup]
  | cons p rest ih =>
      obtain ⟨k3, v⟩ := p
      by_cases h : k3 = k
      · subst h
        simp [updateDim, getDim, alookup]
      · simp [updateDim, getDim, alookup, h] at ih ⊢
        exact ih

theorem updateDim_keys (d : DimMap) (k : String) (f : DimensionStats → DimensionStats) :
    List.map Prod.fst (updateDim d k f) =
      if k ∈ List.map Prod.fst d then List.map Prod.fst d
      else List.map Prod.fst d ++ [k] := by
  induction d with
  | nil => simp [updateDim]
  | cons p rest ih =>
      obtain ⟨k3, v⟩ := p
      by_cases h : k3 = k
      · subst h
        simp [updateDim]
      · have hne : ¬ k = k3 := fun hk => h hk.symm
        by_cases hm : k ∈ List.map Prod.fst rest
        · simp [updateDim, h, ih, hm, hne]
        · simp [updateDim, h, ih, hm, hne]

theorem dimNodup_updateDim {d : DimMap} (k : String) (f : DimensionStats → DimensionStats)
    (h : dimNodup d) : dimNodup (updateDim d k f) := by
  unfold dimNodup at h ⊢
  rw [updateDim_keys]
  by_cases hm : k ∈ List.map Prod.fst d
  · simpa [hm] using h
  · have hperm : List.Perm (List.map Prod.fst d ++ [k]) (k :: List.map Prod.fst d) :=
      List.perm_append_singleton k (List.map Prod.fst d)
    rw [if_neg hm, hperm.nodup_iff]
    exact List.nodup_cons.mpr ⟨hm, h⟩

theorem dimSum_updateDim {M : Type} [AddCommMonoid M] (g : DimensionStats → M)
    (f : DimensionStats → DimensionStats) (c : M) (h0 : g {} = 0)
    (hf : ∀ v, g (f v) = g v + c) (d : DimMap) (k : String) :
    dimSum g (updateDim d k f) = dimSum g d + c := by
  induction d with
  | nil => simp [updateDim, dimSum, hf, h0]
  | cons p rest ih =>
      obtain ⟨k3, v⟩ := p
      by_cases h : k3 = k
      · subst h
        simp [updateDim, dimSum, hf v, add_assoc, add_comm, add_left_comm]
      · simp only [updateDim, if_neg h, dimSum, List.map_cons, List.sum_cons] at ih ⊢
        rw [ih, add_assoc]

theorem alookup_regInsert (m : List (String × Session)) (k : String) (s : Session)
    (i : String) :
    alookup (regInsert m k s) i = if k = i then some s else alookup m i := by
  induction m with
  | nil => simp [regInsert, alookup]
  | cons p rest ih =>
      obtain ⟨k3, v⟩ := p
      by_cases h : k3 = k
      · subst h
        by_cases hi : k3 = i <;> simp [regInsert, alookup, hi]
      · by_cases hi : k3 = i
        · subst hi
          have : ¬ k = k3 := fun hk => h hk.symm
          simp [regInsert, h, alookup, this]
        · simp [regInsert, h, alookup, hi, ih]

theorem regInsert_length_notmem (m : List (String × Session)) (k : String) (s : Session)
    (h : alookup m k = none) : (regInsert m k s).length = m.length + 1 := by
  induction m with
  | nil => simp [regInsert]
  | cons p rest ih =>
      obtain ⟨k3, v⟩ := p
      by_cases hk : k3 = k
      · subst hk
        simp [alookup] at h
      · simp only [alookup, if_neg hk] at h
        simp [regInsert, hk, ih h]

theorem foldl_regInsert_alookup (sessions : List Session) (m : List (String × Session))
    (i : String) :
    alookup (sessions.foldl (fun m s => regInsert m s.id s) m) i =
      (lastById sessions i).elim (alookup m i) some := by
  induction sessions generalizing m with
  | nil => simp [lastById]
  | cons s rest ih =>
      simp only [List.foldl_cons, lastById]
      rw [ih]
      cases hl : lastById rest i with
      | some r => simp
      | none =>
          simp only [Option.elim]
          rw [alookup_regInsert]
          by_cases hi : s.id = i <;> simp [hi]

/-! ## Reconciliation invariant lemmas -/

theorem reconciles_initState : reconciles initState := by
  refine ⟨?_, ?_, ?_, ?_, ?_⟩ <;> exact ⟨List.nodup_nil, rfl, rfl, rfl, rfl⟩

theorem reconciles_flushReset (st : MState) : reconciles (flushReset st) := by
  refine ⟨?_, ?_, ?_, ?_, ?_⟩ <;> exact ⟨List.nodup_nil, rfl, rfl, rfl, rfl⟩

theorem recDim_add_started {a b : Nat} {c w : Int} {d : DimMap} (k uid : String)
    (h : recDim a b c w d) :
    recDim (a + 1) b c w (updateDim d k (fun v => v.add_started uid)) := by
  obtain ⟨hn, hs, hc, hb, hw⟩ := h
  refine ⟨dimNodup_updateDim k _ hn, ?_, ?_, ?_, ?_⟩
  · rw [sumStarted] at hs ⊢
    rw [dimSum_updateDim _ _ 1 rfl (fun v => rfl), ← hs]
  · rw [sumClosed] at hc ⊢
    rw [dimSum_updateDim _ _ 0 rfl (fun v => rfl), ← hc]
    omega
  · rw [sumBytes] at hb ⊢
    rw [dimSum_updateDim _ _ 0 rfl (fun v => by simp [DimensionStats.add_started]), ← hb,
      add_zero]
  · rw [sumWatchMs] at hw ⊢
    rw [dimSum_updateDim _ _ 0 rfl (fun v => by simp [DimensionStats.add_started]), ← hw,
      add_zero]

theorem recDim_add_closed {a b : Nat} {c w : Int} {d : DimMap} (k uid : String)
    (bd wt : Int) (h : recDim a b c w d) :
    recDim a (b + 1) (c + bd) (w + wt) (updateDim d k (fun v => v.add_closed uid bd wt)) := by
  obtain ⟨hn, hs, hc, hb, hw⟩ := h
  refine ⟨dimNodup_updateDim k _ hn, ?_, ?_, ?_, ?_⟩
  · rw [sumStarted] at hs ⊢
    rw [dimSum_updateDim _ _ 0 rfl (fun v => rfl), ← hs]
    omega
  · rw [sumClosed] at hc ⊢
    rw [dimSum_updateDim _ _ 1 rfl (fun v => rfl), ← hc]
  · rw [sumBytes] at hb ⊢
    rw [dimSum_updateDim _ _ bd rfl (fun v => by simp [DimensionStats.add_closed]), ← hb]
  · rw [sumWatchMs] at hw ⊢
    rw [dimSum_updateDim _ _ wt rfl (fun v => by simp [DimensionStats.add_closed]), ← hw]

theorem reconciles_sessionStarted {st : MState} (e : StartEvent) (h : reconciles st) :
    reconciles (sessionStarted st e) :=
  ⟨recDim_add_started _ _ h.1, recDim_add_started _ _ h.2.1,
   recDim_add_started _ _ h.2.2.1, recDim_add_started _ _ h.2.2.2.1,
   recDim_add_started _ _ h.2.2.2.2⟩

theorem reconciles_sessionClosed {st st' : MState} (e : CloseEvent)
    (h : reconciles st) (hok : sessionClosed st e = Except.ok st') : reconciles st' := by
  unfold sessionClosed at hok
  cases hp : regPop st.sessions e.id with
  | mk os m =>
      rw [hp] at hok
      cases os with
      | some s =>
          simp only [Except.ok.injEq] at hok
          subst hok
          exact ⟨recDim_add_closed _ _ _ _ h.1, recDim_add_closed _ _ _ _ h.2.1,
                 recDim_add_closed _ _ _ _ h.2.2.1, recDim_add_closed _ _ _ _ h.2.2.2.1,
                 recDim_add_closed _ _ _ _ h.2.2.2.2⟩
      | none =>
          cases hsv : e.server with
          | none => rw [hsv] at hok; cases hok
          | some srv =>
              rw [hsv] at hok
              cases hmd : e.media with
              | none => rw [hmd] at hok; cases hok
              | some med =>
                  rw [hmd] at hok
                  simp only [Except.ok.injEq] at hok
                  subst hok
                  refine ⟨?_, ?_, ?_, ?_, ?_⟩
                  · simpa using recDim_add_closed srv (orDefault e.user_id e.id) e.bytes 0 h.1
                  · simpa using recDim_add_closed med (orDefault e.user_id e.id) e.bytes 0 h.2.1
                  · simpa using
                      recDim_add_closed (orDefault e.country "XX") (orDefault e.user_id e.id)
                        e.bytes 0 h.2.2.1
                  · simpa using
                      recDim_add_closed (orDefault e.proto "unknown") (orDefault e.user_id e.id)
                        e.bytes 0 h.2.2.2.1
                  · simpa using
                      recDim_add_closed (classify_user_agent e.user_agent)
                        (orDefault e.user_id e.id) e.bytes 0 h.2.2.2.2

theorem reconciles_runEvents {st0 st : MState} (evs : List Event)
    (h : reconciles st0) (hrun : runEvents st0 evs = some st) : reconciles st := by
  induction evs generalizing st0 with
  | nil =>
      simp only [runEvents, Option.some.injEq] at hrun
      subst hrun
      exact h
  | cons ev rest ih =>
      cases ev with
      | start e =>
          simp only [runEvents, applyEvent] at hrun
          exact ih (reconciles_sessionStarted e h) hrun
      | close e =>
          simp only [runEvents, applyEvent] at hrun
          cases hcl : sessionClosed st0 e with
          | ok st2 =>
              rw [hcl] at hrun
              exact ih (reconciles_sessionClosed e h hcl) hrun
          | error st2 => rw [hcl] at hrun; cases hrun

theorem keySum_eq_dimSum {M : Type} [AddCommMonoid M] (g : DimensionStats → M)
    (h0 : g {} = 0) :
    ∀ (d : DimMap), dimNodup d → ∀ (K : List String), K.Nodup →
      (∀ k ∈ List.map Prod.fst d, k ∈ K) →
      (List.map (fun k => g (getDim d k)) K).sum = dimSum g d := by
  intro d
  induction d with
  | nil =>
      intro _ K _ _
      have hz : ∀ k : String, g (getDim ([] : DimMap) k) = 0 := fun k => by
        simp [getDim, alookup, h0]
      simp [dimSum, hz]
  | cons p rest ih =>
      intro hd K hK hsub
      obtain ⟨k0, v0⟩ := p
      have hmk : (k0 :: List.map Prod.fst rest).Nodup := hd
      have hk0rest : k0 ∉ List.map Prod.fst rest := (List.nodup_cons.mp hmk).1
      have hdrest : dimNodup rest := (List.nodup_cons.mp hmk).2
      have hk0K : k0 ∈ K := hsub k0 (by simp)
      have hperm := (List.perm_cons_erase hk0K).map (fun k => g (getDim ((k0, v0) :: rest) k))
      rw [hperm.sum_eq]
      have hhead : g (getDim ((k0, v0) :: rest) k0) = g v0 := by
        simp [getDim, alookup]
      have htail :
          List.map (fun k => g (getDim ((k0, v0) :: rest) k)) (K.erase k0) =
            List.map (fun k => g (getDim rest k)) (K.erase k0) := by
        refine List.map_congr_left ?_
        intro k hk
        have hne : k ≠ k0 := (List.Nodup.mem_erase_iff hK |>.mp hk).1
        have : ¬ k0 = k := fun hkk => hne hkk.symm
        simp [getDim, alookup, this]
      have hsubrest : ∀ k ∈ List.map Prod.fst rest, k ∈ K.erase k0 := by
        intro k hk
        have hne : k ≠ k0 := fun hkk => hk0rest (hkk ▸ hk)
        exact (List.mem_erase_of_ne hne).mpr (hsub k (by simp [hk]))
      calc (List.map (fun k => g (getDim ((k0, v0) :: rest) k)) (k0 :: K.erase k0)).sum
        = g v0 + (List.map (fun k => g (getDim rest k)) (K.erase k0)).sum := by
            rw [List.map_cons, List.sum_cons, hhead, htail]
      _ = g v0 + dimSum g rest := by
            rw [ih hdrest (K.erase k0) (hK.erase k0) hsubrest]
      _ = dimSum g ((k0, v0) :: rest) := by simp [dimSum]

theorem rowsStarted_finalize (d : DimMap) (hd : dimNodup d) (conc : List (String × Nat)) :
    rowsStarted (finalizeDim d conc) = sumStarted d := by
  unfold rowsStarted finalizeDim
  rw [List.map_map]
  exact keySum_eq_dimSum (fun v => v.started) rfl d hd _ (nodup_dedupKeys _)
    (fun k hk => (mem_dedupKeys _ k).mpr (List.mem_append_left _ hk))

theorem rowsClosed_finalize (d : DimMap) (hd : dimNodup d) (conc : List (String × Nat)) :
    rowsClosed (finalizeDim d conc) = sumClosed d := by
  unfold rowsClosed finalizeDim
  rw [List.map_map]
  exact keySum_eq_dimSum (fun v => v.closed) rfl d hd _ (nodup_dedupKeys _)
    (fun k hk => (mem_dedupKeys _ k).mpr (List.mem_append_left _ hk))

theorem rowsBytes_finalize (d : DimMap) (hd : dimNodup d) (conc : List (String × Nat)) :
    rowsBytes (finalizeDim d conc) = sumBytes d := by
  unfold rowsBytes finalizeDim
  rw [List.map_map]
  exact keySum_eq_dimSum (fun v => v.bytes) rfl d hd _ (nodup_dedupKeys _)
    (fun k hk => (mem_dedupKeys _ k).mpr (List.mem_append_left _ hk))

/-! ## Claim C1 -/

/-- Claim C1, amended.  For every event sequence applied between two flushes
(from any reconciling window state, e.g. a freshly reset one), the flush
result's global row equals the sum over any one dimension's rows for
`sessions_started`, `sessions_closed` and `total_bytes`; for watch time the
identity holds before truncation: the global `watch_time_seconds` equals the
per-dimension sum of `watch_time_ms` floor-divided by 1000.  (As frozen the
claim also asserted the per-key-truncated `watch_time_seconds` sums to the
global figure, which `C1_counterexample` refutes.) -/
theorem C1_amended_reconciliation (st0 : MState) (h0 : reconciles st0)
    (evs : List Event) (st : MState) (hrun : runEvents st0 evs = some st) :
    (rowsReconcile (flushOut st).global (flushOut st).by_server ∧
     rowsReconcile (flushOut st).global (flushOut st).by_channel ∧
     rowsReconcile (flushOut st).global (flushOut st).by_country ∧
     rowsReconcile (flushOut st).global (flushOut st).by_protocol ∧
     rowsReconcile (flushOut st).global (flushOut st).by_user_agent) ∧
    ((flushOut st).global.watch_time_seconds = Int.fdiv (sumWatchMs st.by_server) 1000 ∧
     (flushOut st).global.watch_time_seconds = Int.fdiv (sumWatchMs st.by_channel) 1000 ∧
     (flushOut st).global.watch_time_seconds = Int.fdiv (sumWatchMs st.by_country) 1000 ∧
     (flushOut st).global.watch_time_seconds = Int.fdiv (sumWatchMs st.by_protocol) 1000 ∧
     (flushOut st).global.watch_time_seconds = Int.fdiv (sumWatchMs st.by_user_agent) 1000) := by
  obtain ⟨r1, r2, r3, r4, r5⟩ := reconciles_runEvents evs h0 hrun
  dsimp only [flushOut, get_and_reset_minute_stats]
  refine ⟨⟨⟨?_, ?_, ?_⟩, ⟨?_, ?_, ?_⟩, ⟨?_, ?_, ?_⟩, ⟨?_, ?_, ?_⟩, ⟨?_, ?_, ?_⟩⟩,
          ?_, ?_, ?_, ?_, ?_⟩
  · rw [rowsStarted_finalize _ r1.1, ← r1.2.1]
  · rw [rowsClosed_finalize _ r1.1, ← r1.2.2.1]
  · rw [rowsBytes_finalize _ r1.1, ← r1.2.2.2.1]
  · rw [rowsStarted_finalize _ r2.1, ← r2.2.1]
  · rw [rowsClosed_finalize _ r2.1, ← r2.2.2.1]
  · rw [rowsBytes_finalize _ r2.1, ← r2.2.2.2.1]
  · rw [rowsStarted_finalize _ r3.1, ← r3.2.1]
  · rw [rowsClosed_finalize _ r3.1, ← r3.2.2.1]
  · rw [rowsBytes_finalize _ r3.1, ← r3.2.2.2.1]
  · rw [rowsStarted_finalize _ r4.1, ← r4.2.1]
  · rw [rowsClosed_finalize _ r4.1, ← r4.2.2.1]
  · rw [rowsBytes_finalize _ r4.1, ← r4.2.2.2.1]
  · rw [rowsStarted_finalize _ r5.1, ← r5.2.1]
  · rw [rowsClosed_finalize _ r5.1, ← r5.2.2.1]
  · rw [rowsBytes_finalize _ r5.1, ← r5.2.2.2.1]
  · rw [r1.2.2.2.2]
  · rw [r2.2.2.2.2]
  · rw [r3.2.2.2.2]
  · rw [r4.2.2.2.2]
  · rw [r5.2.2.2.2]

/-- Claim C1, as frozen, is false: two 500 ms sessions on distinct channels
make the global watch time 1000 ms, reported as 1 s, while each channel row
truncates 500 ms to 0 s, so the by-channel sum of `watch_time_seconds` is 0. -/
theorem C1_counterexample :
    runEvents initState c1CexEvents = some c1CexState ∧
    (flushOut c1CexState).global.watch_time_seconds = 1 ∧
    rowsWatchSec (flushOut c1CexState).by_channel = 0 ∧
    rowsWatchSec (flushOut c1CexState).by_channel ≠
      (flushOut c1CexState).global.watch_time_seconds := by
  have h1 : runEvents initState c1CexEvents = some c1CexState := by rfl
  have h2 : (flushOut c1CexState).global.watch_time_seconds = 1 := by rfl
  have h3 : rowsWatchSec (flushOut c1CexState).by_channel = 0 := by rfl
  refine ⟨h1, h2, h3, ?_⟩
  rw [h3, h2]
  decide

/-- Witness for `C1_amended_reconciliation` at a concrete run (a start, a
matched close and an unmatched close from a fresh window). -/
theorem C1_witness :
    reconciles initState ∧
    runEvents initState c1WitnessEvents = some c1WitnessState ∧
    ((rowsReconcile (flushOut c1WitnessState).global (flushOut c1WitnessState).by_server ∧
      rowsReconcile (flushOut c1WitnessState).global (flushOut c1WitnessState).by_channel ∧
      rowsReconcile (flushOut c1WitnessState).global (flushOut c1WitnessState).by_country ∧
      rowsReconcile (flushOut c1WitnessState).global (flushOut c1WitnessState).by_protocol ∧
      rowsReconcile (flushOut c1WitnessState).global (flushOut c1WitnessState).by_user_agent) ∧
     ((flushOut c1WitnessState).global.watch_time_seconds =
        Int.fdiv (sumWatchMs c1WitnessState.by_server) 1000 ∧
      (flushOut c1WitnessState).global.watch_time_seconds =
        Int.fdiv (sumWatchMs c1WitnessState.by_channel) 1000 ∧
      (flushOut c1WitnessState).global.watch_time_seconds =
        Int.fdiv (sumWatchMs c1WitnessState.by_country) 1000 ∧
      (flushOut c1WitnessState).global.watch_time_seconds =
        Int.fdiv (sumWatchMs c1WitnessState.by_protocol) 1000 ∧
      (flushOut c1WitnessState).global.watch_time_seconds =
        Int.fdiv (sumWatchMs c1WitnessState.by_user_agent) 1000)) :=
  ⟨by decide, by rfl,
   C1_amended_reconciliation initState (by decide) c1WitnessEvents c1WitnessState (by rfl)⟩

/-! ## Claim C2 -/

theorem rowsAllZero_finalize_empty (conc : List (String × Nat)) :
    rowsAllZero (finalizeDim [] conc) := by
  intro p hp
  unfold finalizeDim at hp
  simp only [List.mem_map] at hp
  obtain ⟨k, hk, rfl⟩ := hp
  exact ⟨rfl, rfl, rfl, rfl, rfl⟩

/-- Claim C2: after a flush, a second flush with no intervening events
reports zero for every measure in the global row and in every dimension row,
except `peak_concurrent`: the second flush's global peak equals the registry
size at the moment of the first flush's reset (the registry is untouched by
flushing). -/
theorem C2_reset_completeness (st : MState) :
    (flushOut (flushReset st)).global.sessions_started = 0 ∧
    (flushOut (flushReset st)).global.sessions_closed = 0 ∧
    (flushOut (flushReset st)).global.total_bytes = 0 ∧
    (flushOut (flushReset st)).global.watch_time_seconds = 0 ∧
    (flushOut (flushReset st)).global.unique_users = 0 ∧
    rowsAllZero (flushOut (flushReset st)).by_server ∧
    rowsAllZero (flushOut (flushReset st)).by_channel ∧
    rowsAllZero (flushOut (flushReset st)).by_country ∧
    rowsAllZero (flushOut (flushReset st)).by_protocol ∧
    rowsAllZero (flushOut (flushReset st)).by_user_agent ∧
    (flushOut (flushReset st)).global.peak_concurrent = st.sessions.length := by
  dsimp only [flushOut, flushReset, get_and_reset_minute_stats]
  exact ⟨rfl, rfl, rfl, rfl, rfl,
         rowsAllZero_finalize_empty _, rowsAllZero_finalize_empty _,
         rowsAllZero_finalize_empty _, rowsAllZero_finalize_empty _,
         rowsAllZero_finalize_empty _, rfl⟩

/-- Witness for `C2_reset_completeness` at a state holding one live session. -/
theorem C2_witness :
    (flushOut (flushReset c2WitState)).global.sessions_started = 0 ∧
    (flushOut (flushReset c2WitState)).global.sessions_closed = 0 ∧
    (flushOut (flushReset c2WitState)).global.total_bytes = 0 ∧
    (flushOut (flushReset c2WitState)).global.watch_time_seconds = 0 ∧
    (flushOut (flushReset c2WitState)).global.unique_users = 0 ∧
    rowsAllZero (flushOut (flushReset c2WitState)).by_server ∧
    rowsAllZero (flushOut (flushReset c2WitState)).by_channel ∧
    rowsAllZero (flushOut (flushReset c2WitState)).by_country ∧
    rowsAllZero (flushOut (flushReset c2WitState)).by_protocol ∧
    rowsAllZero (flushOut (flushReset c2WitState)).by_user_agent ∧
    (flushOut (flushReset c2WitState)).global.peak_concurrent =
      c2WitState.sessions.length :=
  C2_reset_completeness c2WitState

/-! ## Claim C3 -/

/-- Claim C3, as frozen, is false: the code has no `max(0, ...)` clamp.  A
close at 1500 ms of a session opened at 2000 ms adds −500 ms to the global
and per-dimension watch-time accumulators. -/
theorem C3_counterexample :
    sessionClosed c3PreState evC3Close = Except.ok c3State ∧
    c3State.minute_watch_time_ms = -500 ∧
    (getDim c3State.by_server "a").watch_time_ms = -500 := by
  refine ⟨by rfl, by rfl, by rfl⟩

/-- Claim C3, amended.  On a close matching a live session the watch time
added to the window, globally and in each of the five dimensions at the
session's recorded keys, is `closed_at - opened_at` when `closed_at` is
present and nonzero, and 0 when it is absent (or 0); the difference is
passed through unclamped, so it is negative whenever `closed_at` precedes
`opened_at`. -/
theorem C3_amended_watch_time (st : MState) (e : CloseEvent) (s : Session)
    (h : (regPop st.sessions e.id).1 = some s) :
    exceptOk (sessionClosed st e) = true ∧
    (closeState (sessionClosed st e)).minute_watch_time_ms =
      st.minute_watch_time_ms + (if e.closed_at ≠ 0 then e.closed_at - s.opened_at else 0) ∧
    (getDim (closeState (sessionClosed st e)).by_server s.server).watch_time_ms =
      (getDim st.by_server s.server).watch_time_ms +
        (if e.closed_at ≠ 0 then e.closed_at - s.opened_at else 0) ∧
    (getDim (closeState (sessionClosed st e)).by_channel s.media).watch_time_ms =
      (getDim st.by_channel s.media).watch_time_ms +
        (if e.closed_at ≠ 0 then e.closed_at - s.opened_at else 0) ∧
    (getDim (closeState (sessionClosed st e)).by_country s.country).watch_time_ms =
      (getDim st.by_country s.country).watch_time_ms +
        (if e.closed_at ≠ 0 then e.closed_at - s.opened_at else 0) ∧
    (getDim (closeState (sessionClosed st e)).by_protocol s.proto).watch_time_ms =
      (getDim st.by_protocol s.proto).watch_time_ms +
        (if e.closed_at ≠ 0 then e.closed_at - s.opened_at else 0) ∧
    (getDim (closeState (sessionClosed st e)).by_user_agent s.user_agent_class).watch_time_ms =
      (getDim st.by_user_agent s.user_agent_class).watch_time_ms +
        (if e.closed_at ≠ 0 then e.closed_at - s.opened_at else 0) := by
  cases hp : regPop st.sessions e.id with
  | mk os m =>
      rw [hp] at h
      cases os with
      | none => cases h
      | some s2 =>
          have hs2 : s2 = s := Option.some.inj h
          subst hs2
          unfold sessionClosed
          rw [hp]
          dsimp only [closeState, exceptOk]
          refine ⟨rfl, rfl, ?_, ?_, ?_, ?_, ?_⟩ <;>
            rw [getDim_updateDim_self] <;> rfl

/-- Witness for `C3_amended_watch_time` at the out-of-order close. -/
theorem C3_witness :
    exceptOk (sessionClosed c3PreState evC3Close) = true ∧
    (closeState (sessionClosed c3PreState evC3Close)).minute_watch_time_ms =
      c3PreState.minute_watch_time_ms +
        (if evC3Close.closed_at ≠ 0 then evC3Close.closed_at - c3Session.opened_at else 0) ∧
    (getDim (closeState (sessionClosed c3PreState evC3Close)).by_server
        c3Session.server).watch_time_ms =
      (getDim c3PreState.by_server c3Session.server).watch_time_ms +
        (if evC3Close.closed_at ≠ 0 then evC3Close.closed_at - c3Session.opened_at else 0) ∧
    (getDim (closeState (sessionClosed c3PreState evC3Close)).by_channel
        c3Session.media).watch_time_ms =
      (getDim c3PreState.by_channel c3Session.media).watch_time_ms +
        (if evC3Close.closed_at ≠ 0 then evC3Close.closed_at - c3Session.opened_at else 0) ∧
    (getDim (closeState (sessionClosed c3PreState evC3Close)).by_country
        c3Session.country).watch_time_ms =
      (getDim c3PreState.by_country c3Session.country).watch_time_ms +
        (if evC3Close.closed_at ≠ 0 then evC3Close.closed_at - c3Session.opened_at else 0) ∧
    (getDim (closeState (sessionClosed c3PreState evC3Close)).by_protocol
        c3Session.proto).watch_time_ms =
      (getDim c3PreState.by_protocol c3Session.proto).watch_time_ms +
        (if evC3Close.closed_at ≠ 0 then evC3Close.closed_at - c3Session.opened_at else 0) ∧
    (getDim (closeState (sessionClosed c3PreState evC3Close)).by_user_agent
        c3Session.user_agent_class).watch_time_ms =
      (getDim c3PreState.by_user_agent c3Session.user_agent_class).watch_time_ms +
        (if evC3Close.closed_at ≠ 0 then evC3Close.closed_at - c3Session.opened_at else 0) :=
  C3_amended_watch_time c3PreState evC3Close c3Session (by rfl)

/-! ## Claim C4 -/

/-- Claim C4: a close whose id is not in the registry increments the global
closed counter by one, adds the event's raw bytes (not a delta) to the global
bytes, attributes the close with zero watch time to all five dimensions at
the event's own keys (with the documented defaults for country, protocol and
user-agent class), and neither inserts nor removes a session: the registry is
unchanged. -/
theorem C4_unmatched_close (st : MState) (e : CloseEvent) (srv med : String)
    (hs : e.server = some srv) (hm : e.media = some med)
    (h : (regPop st.sessions e.id).1 = none) :
    exceptOk (sessionClosed st e) = true ∧
    (closeState (sessionClosed st e)).sessions = st.sessions ∧
    (closeState (sessionClosed st e)).minute_started = st.minute_started ∧
    (closeState (sessionClosed st e)).minute_closed = st.minute_closed + 1 ∧
    (closeState (sessionClosed st e)).minute_bytes = st.minute_bytes + e.bytes ∧
    (getDim (closeState (sessionClosed st e)).by_server srv).closed =
      (getDim st.by_server srv).closed + 1 ∧
    (getDim (closeState (sessionClosed st e)).by_server srv).bytes =
      (getDim st.by_server srv).bytes + e.bytes ∧
    (getDim (closeState (sessionClosed st e)).by_server srv).watch_time_ms =
      (getDim st.by_server srv).watch_time_ms ∧
    (getDim (closeState (sessionClosed st e)).by_channel med).closed =
      (getDim st.by_channel med).closed + 1 ∧
    (getDim (closeState (sessionClosed st e)).by_channel med).bytes =
      (getDim st.by_channel med).bytes + e.bytes ∧
    (getDim (closeState (sessionClosed st e)).by_channel med).watch_time_ms =
      (getDim st.by_channel med).watch_time_ms ∧
    (getDim (closeState (sessionClosed st e)).by_country (orDefault e.country "XX")).closed =
      (getDim st.by_country (orDefault e.country "XX")).closed + 1 ∧
    (getDim (closeState (sessionClosed st e)).by_country (orDefault e.country "XX")).bytes =
      (getDim st.by_country (orDefault e.country "XX")).bytes + e.bytes ∧
    (getDim (closeState (sessionClosed st e)).by_country
        (orDefault e.country "XX")).watch_time_ms =
      (getDim st.by_country (orDefault e.country "XX")).watch_time_ms ∧
    (getDim (closeState (sessionClosed st e)).by_protocol
        (orDefault e.proto "unknown")).closed =
      (getDim st.by_protocol (orDefault e.proto "unknown")).closed + 1 ∧
    (getDim (closeState (sessionClosed st e)).by_protocol
        (orDefault e.proto "unknown")).bytes =
      (getDim st.by_protocol (orDefault e.proto "unknown")).bytes + e.bytes ∧
    (getDim (closeState (sessionClosed st e)).by_protocol
        (orDefault e.proto "unknown")).watch_time_ms =
      (getDim st.by_protocol (orDefault e.proto "unknown")).watch_time_ms ∧
    (getDim (closeState (sessionClosed st e)).by_user_agent
        (classify_user_agent e.user_agent)).closed =
      (getDim st.by_user_agent (classify_user_agent e.user_agent)).closed + 1 ∧
    (getDim (closeState (sessionClosed st e)).by_user_agent
        (classify_user_agent e.user_agent)).bytes =
      (getDim st.by_user_agent (classify_user_agent e.user_agent)).bytes + e.bytes ∧
    (getDim (closeState (sessionClosed st e)).by_user_agent
        (classify_user_agent e.user_agent)).watch_time_ms =
      (getDim st.by_user_agent (classify_user_agent e.user_agent)).watch_time_ms := by
  cases hp : regPop st.sessions e.id with
  | mk os m =>
      rw [hp] at h
      cases os with
      | some s2 => cases h
      | none =>
          unfold sessionClosed
          rw [hp, hs, hm]
          dsimp only [closeState, exceptOk]
          refine ⟨rfl, rfl, rfl, rfl, rfl, ?_, ?_, ?_, ?_, ?_, ?_, ?_, ?_, ?_,
                  ?_, ?_, ?_, ?_, ?_, ?_⟩ <;>
            rw [getDim_updateDim_self] <;>
            simp [DimensionStats.add_closed]

/-- Witness for `C4_unmatched_close`: closing the never-seen id `ghost`
against a registry holding only `s1`. -/
theorem C4_witness :
    exceptOk (sessionClosed c3PreState evC4Close) = true ∧
    (closeState (sessionClosed c3PreState evC4Close)).sessions = c3PreState.sessions ∧
    (closeState (sessionClosed c3PreState evC4Close)).minute_started =
      c3PreState.minute_started ∧
    (closeState (sessionClosed c3PreState evC4Close)).minute_closed =
      c3PreState.minute_closed + 1 ∧
    (closeState (sessionClosed c3PreState evC4Close)).minute_bytes =
      c3PreState.minute_bytes + evC4Close.bytes ∧
    (getDim (closeState (sessionClosed c3PreState evC4Close)).by_server "sv").closed =
      (getDim c3PreState.by_server "sv").closed + 1 ∧
    (getDim (closeState (sessionClosed c3PreState evC4Close)).by_server "sv").bytes =
      (getDim c3PreState.by_server "sv").bytes + evC4Close.bytes ∧
    (getDim (closeState (sessionClosed c3PreState evC4Close)).by_server "sv").watch_time_ms =
      (getDim c3PreState.by_server "sv").watch_time_ms ∧
    (getDim (closeState (sessionClosed c3PreState evC4Close)).by_channel "ch").closed =
      (getDim c3PreState.by_channel "ch").closed + 1 ∧
    (getDim (closeState (sessionClosed c3PreState evC4Close)).by_channel "ch").bytes =
      (getDim c3PreState.by_channel "ch").bytes + evC4Close.bytes ∧
    (getDim (closeState (sessionClosed c3PreState evC4Close)).by_channel "ch").watch_time_ms =
      (getDim c3PreState.by_channel "ch").watch_time_ms ∧
    (getDim (closeState (sessionClosed c3PreState evC4Close)).by_country
        (orDefault evC4Close.country "XX")).closed =
      (getDim c3PreState.by_country (orDefault evC4Close.country "XX")).closed + 1 ∧
    (getDim (closeState (sessionClosed c3PreState evC4Close)).by_country
        (orDefault evC4Close.country "XX")).bytes =
      (getDim c3PreState.by_country (orDefault evC4Close.country "XX")).bytes +
        evC4Close.bytes ∧
    (getDim (closeState (sessionClosed c3PreState evC4Close)).by_country
        (orDefault evC4Close.country "XX")).watch_time_ms =
      (getDim c3PreState.by_country (orDefault evC4Close.country "XX")).watch_time_ms ∧
    (getDim (closeState (sessionClosed c3PreState evC4Close)).by_protocol
        (orDefault evC4Close.proto "unknown")).closed =
      (getDim c3PreState.by_protocol (orDefault evC4Close.proto "unknown")).closed + 1 ∧
    (getDim (closeState (sessionClosed c3PreState evC4Close)).by_protocol
        (orDefault evC4Close.proto "unknown")).bytes =
      (getDim c3PreState.by_protocol (orDefault evC4Close.proto "unknown")).bytes +
        evC4Close.bytes ∧
    (getDim (closeState (sessionClosed c3PreState evC4Close)).by_protocol
        (orDefault evC4Close.proto "unknown")).watch_time_ms =
      (getDim c3PreState.by_protocol (orDefault evC4Close.proto "unknown")).watch_time_ms ∧
    (getDim (closeState (sessionClosed c3PreState evC4Close)).by_user_agent
        (classify_user_agent evC4Close.user_agent)).closed =
      (getDim c3PreState.by_user_agent (classify_user_agent evC4Close.user_agent)).closed + 1 ∧
    (getDim (closeState (sessionClosed c3PreState evC4Close)).by_user_agent
        (classify_user_agent evC4Close.user_agent)).bytes =
      (getDim c3PreState.by_user_agent (classify_user_agent evC4Close.user_agent)).bytes +
        evC4Close.bytes ∧
    (getDim (closeState (sessionClosed c3PreState evC4Close)).by_user_agent
        (classify_user_agent evC4Close.user_agent)).watch_time_ms =
      (getDim c3PreState.by_user_agent
        (classify_user_agent evC4Close.user_agent)).watch_time_ms :=
  C4_unmatched_close c3PreState evC4Close "sv" "ch" (by rfl) (by rfl) (by rfl)

/-! ## Claim C10 -/

/-- Claim C10 (implicit): an unmatched close whose event dict lacks `server`
(or `media`) raises `KeyError`, and at the raise point the global closed
counter, global bytes and the global unique-user set are already mutated:
the failed operation is not atomic.  (Through the webhook this dict shape is
reachable only because `session_closed` receives the raw dict, while the
spec's Close event shape carries no server or media field.) -/
theorem C10_partial_mutation_on_keyerror (st : MState) (e : CloseEvent)
    (h : (regPop st.sessions e.id).1 = none)
    (hmiss : e.server = none ∨ e.media = none) :
    exceptOk (sessionClosed st e) = false ∧
    (closeState (sessionClosed st e)).minute_closed = st.minute_closed + 1 ∧
    (closeState (sessionClosed st e)).minute_bytes = st.minute_bytes + e.bytes ∧
    orDefault e.user_id e.id ∈ (closeState (sessionClosed st e)).minute_unique_users := by
  cases hp : regPop st.sessions e.id with
  | mk os m =>
      rw [hp] at h
      cases os with
      | some s2 => cases h
      | none =>
          unfold sessionClosed
          rw [hp]
          cases hsv : e.server with
          | none =>
              dsimp only [closeState, exceptOk]
              exact ⟨rfl, rfl, rfl, Finset.mem_insert_self _ _⟩
          | some srv =>
              have hmd : e.media = none := by
                rcases hmiss with hmiss | hmiss
                · rw [hsv] at hmiss; cases hmiss
                · exact hmiss
              rw [hmd]
              dsimp only [closeState, exceptOk]
              exact ⟨rfl, rfl, rfl, Finset.mem_insert_self _ _⟩

/-- Witness for `C10_partial_mutation_on_keyerror`: closing the never-seen id
`ghost2` with an event dict lacking both `server` and `media`. -/
theorem C10_witness :
    exceptOk (sessionClosed initState evC10Close) = false ∧
    (closeState (sessionClosed initState evC10Close)).minute_closed =
      initState.minute_closed + 1 ∧
    (closeState (sessionClosed initState evC10Close)).minute_bytes =
      initState.minute_bytes + evC10Close.bytes ∧
    orDefault evC10Close.user_id evC10Close.id ∈
      (closeState (sessionClosed initState evC10Close)).minute_unique_users :=
  C10_partial_mutation_on_keyerror initState evC10Close (by rfl) (Or.inl (by rfl))

/-! ## Claim C5 -/

/-- Claim C5: the worked example.  Starting from an empty registry and fresh
window, start `s1` (user agent classified `android`, opened at 1000 ms), close
it at 1500 ms with 2048 bytes, flush: the global row reports started 1,
closed 1, bytes 2048, watch-time 0 s (500 ms truncates to 0), one unique
user, and the `by_user_agent` row under `android` carries the same measures. -/
theorem C5_worked_example :
    sessionClosed (sessionStarted initState evC5Start) evC5Close = Except.ok c5State ∧
    (flushOut c5State).global.sessions_started = 1 ∧
    (flushOut c5State).global.sessions_closed = 1 ∧
    (flushOut c5State).global.total_bytes = 2048 ∧
    (flushOut c5State).global.watch_time_seconds = 0 ∧
    (flushOut c5State).global.unique_users = 1 ∧
    alookup (flushOut c5State).by_user_agent "android" =
      some { sessions_started := 1, sessions_closed := 1, total_bytes := 2048,
             watch_time_seconds := 0, unique_users := 1, peak_concurrent := 0 } := by
  refine ⟨by rfl, by rfl, by rfl, by rfl, by rfl, by rfl, by decide⟩

/-! ## Claim C6 -/

theorem ite_gt_eq_max (p cc : Nat) : (if cc > p then cc else p) = max p cc := by
  split <;> omega

theorem sessionStarted_peak (st : MState) (e : StartEvent) :
    (sessionStarted st e).minute_peak_concurrent =
      max st.minute_peak_concurrent (sessionStarted st e).sessions.length := by
  dsimp only [sessionStarted]
  exact ite_gt_eq_max _ _

theorem applyStarts_length (evs : List StartEvent) :
    ∀ st : MState, (List.map (fun e => e.id) evs).Nodup →
      (∀ e ∈ evs, alookup st.sessions e.id = none) →
      (applyStarts st evs).sessions.length = st.sessions.length + evs.length := by
  induction evs with
  | nil => intro st _ _; simp [applyStarts]
  | cons e rest ih =>
      intro st hnd hfresh
      have hnd2 : (e.id :: List.map (fun e2 => e2.id) rest).Nodup := by simpa using hnd
      have hfe : alookup st.sessions e.id = none := hfresh e (by simp)
      have hlen1 : (sessionStarted st e).sessions.length = st.sessions.length + 1 := by
        dsimp only [sessionStarted]
        exact regInsert_length_notmem _ _ _ hfe
      have hfresh2 : ∀ e2 ∈ rest, alookup (sessionStarted st e).sessions e2.id = none := by
        intro e2 he2
        dsimp only [sessionStarted]
        rw [alookup_regInsert]
        have hne : ¬ e.id = e2.id := by
          intro hcontra
          exact (List.nodup_cons.mp hnd2).1 (hcontra ▸ List.mem_map_of_mem _ he2)
        rw [if_neg hne]
        exact hfresh e2 (List.mem_cons_of_mem _ he2)
      have hrest := ih (sessionStarted st e) (List.nodup_cons.mp hnd2).2 hfresh2
      calc (applyStarts st (e :: rest)).sessions.length
          = (applyStarts (sessionStarted st e) rest).sessions.length := rfl
        _ = (sessionStarted st e).sessions.length + rest.length := hrest
        _ = st.sessions.length + (e :: rest).length := by rw [hlen1]; simp; omega

theorem applyStarts_peak_ge (evs : List StartEvent) :
    ∀ st : MState, st.sessions.length ≤ st.minute_peak_concurrent →
      (applyStarts st evs).sessions.length ≤ (applyStarts st evs).minute_peak_concurrent := by
  induction evs with
  | nil => intro st h; exact h
  | cons e rest ih =>
      intro st _
      apply ih
      rw [sessionStarted_peak]
      exact le_max_right _ _

theorem start_close_same_id (e0 : StartEvent) (ce : CloseEvent) (hid : ce.id = e0.id) :
    exceptOk (sessionClosed (sessionStarted initState e0) ce) = true ∧
    (closeState (sessionClosed (sessionStarted initState e0) ce)).sessions.length = 0 := by
  have hpop : regPop (sessionStarted initState e0).sessions ce.id =
      (some { id := e0.id, server := e0.server, media := e0.media,
              user_id := orDefault e0.user_id e0.id,
              country := orDefault e0.country "XX",
              proto := orDefault e0.proto "unknown",
              user_agent_class := classify_user_agent e0.user_agent,
              bytes := e0.bytes, opened_at := e0.opened_at }, []) := by
    dsimp only [sessionStarted, initState]
    simp [regInsert, regPop, hid]
  unfold sessionClosed
  rw [hpop]
  dsimp only [closeState, exceptOk]
  exact ⟨rfl, rfl⟩

/-- Claim C6, as frozen, is false for start events sharing an id: two starts
with id `dup` leave one registry entry, not two (duplicate starts overwrite). -/
theorem C6_counterexample :
    (applyStarts initState [evDup, evDup]).sessions.length = 1 ∧
    (applyStarts initState [evDup, evDup]).sessions.length ≠ 2 := by
  have h : (applyStarts initState [evDup, evDup]).sessions.length = 1 := by rfl
  refine ⟨h, ?_⟩
  rw [h]
  decide

/-- Claim C6, amended with pairwise-distinct ids.  After N start events with
distinct ids and no closes from an empty registry, the registry holds N
sessions and the global peak is at least N; a start then a close of the same
id from an empty registry leaves the registry empty; and every start sets the
global peak to the maximum of its previous value and the registry size right
after the insertion. -/
theorem C6_amended_concurrency (evs : List StartEvent)
    (hnodup : (List.map (fun e => e.id) evs).Nodup)
    (e0 : StartEvent) (ce : CloseEvent) (hid : ce.id = e0.id)
    (st : MState) (e : StartEvent) :
    (applyStarts initState evs).sessions.length = evs.length ∧
    evs.length ≤ (applyStarts initState evs).minute_peak_concurrent ∧
    exceptOk (sessionClosed (sessionStarted initState e0) ce) = true ∧
    (closeState (sessionClosed (sessionStarted initState e0) ce)).sessions.length = 0 ∧
    (sessionStarted st e).minute_peak_concurrent =
      max st.minute_peak_concurrent (sessionStarted st e).sessions.length := by
  have hlen : (applyStarts initState evs).sessions.length = evs.length := by
    have h := applyStarts_length evs initState hnodup (fun e2 _ => rfl)
    simpa [initState] using h
  refine ⟨hlen, ?_, (start_close_same_id e0 ce hid).1, (start_close_same_id e0 ce hid).2,
          sessionStarted_peak st e⟩
  have hpk := applyStarts_peak_ge evs initState (by simp [initState])
  rw [hlen] at hpk
  exact hpk

/-- Witness for `C6_amended_concurrency`: two distinct starts, then `b1`
started and closed, and the peak update checked at one more start. -/
theorem C6_witness :
    (applyStarts initState [evB1, evB2]).sessions.length = [evB1, evB2].length ∧
    [evB1, evB2].length ≤ (applyStarts initState [evB1, evB2]).minute_peak_concurrent ∧
    exceptOk (sessionClosed (sessionStarted initState evB1) evB1c) = true ∧
    (closeState (sessionClosed (sessionStarted initState evB1) evB1c)).sessions.length = 0 ∧
    (sessionStarted initState evB2).minute_peak_concurrent =
      max initState.minute_peak_concurrent (sessionStarted initState evB2).sessions.length :=
  C6_amended_concurrency [evB1, evB2] (by decide) evB1 evB1c (by rfl) initState evB2

/-! ## Claim C7 -/

/-- Claim C7: `restore_sessions` inserts every given session keyed by its id,
later list entries overwriting earlier ones on duplicate ids (looking up any
id afterwards finds the last session with that id, or whatever the registry
held before), and then sets the eager global peak-concurrent counter to the
resulting registry size. -/
theorem C7_restore_sessions (st : MState) (sessions : List Session) (i : String) :
    alookup (restore_sessions st sessions).sessions i =
      (lastById sessions i).elim (alookup st.sessions i) some ∧
    (restore_sessions st sessions).minute_peak_concurrent =
      (restore_sessions st sessions).sessions.length := by
  refine ⟨?_, rfl⟩
  dsimp only [restore_sessions]
  exact foldl_regInsert_alookup sessions st.sessions i

/-! ## Claim C8 -/

theorem findCategory_mem (ps : List (String × List ReAtom)) (hay cat : String)
    (h : findCategory ps hay = some cat) : cat ∈ List.map Prod.fst ps := by
  induction ps with
  | nil => cases h
  | cons p rest ih =>
      obtain ⟨c, atoms⟩ := p
      by_cases hm : patternMatch hay atoms
      · rw [findCategory, if_pos hm] at h
        simp [Option.some.inj h]
      · rw [findCategory, if_neg hm] at h
        simp [ih h]

theorem findCategory_eq_none (ps : List (String × List ReAtom)) (hay : String)
    (h : ps.any (fun p => patternMatch hay p.2) = false) :
    findCategory ps hay = none := by
  induction ps with
  | nil => rfl
  | cons p rest ih =>
      obtain ⟨c, atoms⟩ := p
      simp only [List.any_cons, Bool.or_eq_false_iff] at h
      rw [findCategory, if_neg (by simp [h.1]), ih h.2]

theorem alookup_mem {α : Type} (l : List (String × α)) (k : String) (v : α)
    (h : alookup l k = some v) : (k, v) ∈ l := by
  induction l with
  | nil => cases h
  | cons p rest ih =>
      obtain ⟨k2, v2⟩ := p
      by_cases hk : k2 = k
      · subst hk
        rw [alookup, if_pos rfl] at h
        simp [Option.some.inj h]
      · rw [alookup, if_neg hk] at h
        simp [ih h]

/-- Claim C8: the classifier's contract.  Every input is classified into one
of the seven categories; the empty string and any string matched by none of
the patterns yield `other`; on any coherent (i.e. reachable) cache the
memoised classifier returns exactly what `classify_user_agent` returns, and
it leaves the cache coherent. -/
theorem C8_classifier_contract (ua : String) (cache : List (String × String))
    (hcoh : cacheCoherent cache) :
    classify_user_agent ua ∈
      ["android", "ios", "tv", "stb", "streaming_server", "desktop", "other"] ∧
    (ua = "" → classify_user_agent ua = "other") ∧
    (uaMatchesAny ua = false → classify_user_agent ua = "other") ∧
    (classify_user_agent_cached cache ua).1 = classify_user_agent ua ∧
    cacheCoherent (classify_user_agent_cached cache ua).2 := by
  refine ⟨?_, ?_, ?_, ?_, ?_⟩
  · unfold classify_user_agent
    by_cases h : ua = ""
    · simp [h]
    · rw [if_neg h]
      cases hf : findCategory USER_AGENT_PATTERNS (strLower ua) with
      | none => simp
      | some cat =>
          have hmem : cat ∈ List.map Prod.fst USER_AGENT_PATTERNS :=
            findCategory_mem _ _ _ hf
          have hmem2 : cat ∈ ["streaming_server", "streaming_server", "android", "android",
              "ios", "tv", "tv", "stb", "stb", "desktop", "desktop"] := hmem
          fin_cases hmem2 <;> decide
  · intro h
    simp [classify_user_agent, h]
  · intro h
    unfold classify_user_agent
    by_cases hq : ua = ""
    · simp [hq]
    · rw [if_neg hq, findCategory_eq_none _ _ h]
  · unfold classify_user_agent_cached
    cases hl : alookup cache ua with
    | some cat => exact hcoh (ua, cat) (alookup_mem cache ua cat hl)
    | none =>
        dsimp only
        split <;> rfl
  · unfold classify_user_agent_cached
    cases hl : alookup cache ua with
    | some cat => exact hcoh
    | none =>
        dsimp only
        split
        · intro p hp
          rcases List.mem_cons.mp hp with hp2 | hp2
          · rw [hp2]
          · exact hcoh p hp2
        · exact hcoh

/-- Witness for `C8_classifier_contract`: the empty user agent against a
concrete coherent one-entry cache. -/
theorem C8_witness :
    classify_user_agent "" ∈
      ["android", "ios", "tv", "stb", "streaming_server", "desktop", "other"] ∧
    ("" = "" → classify_user_agent "" = "other") ∧
    (uaMatchesAny "" = false → classify_user_agent "" = "other") ∧
    (classify_user_agent_cached c8WitCache "").1 = classify_user_agent "" ∧
    cacheCoherent (classify_user_agent_cached c8WitCache "").2 :=
  C8_classifier_contract "" c8WitCache (by decide)
